import Mathlib

/-!
# Verification of the firestore local-persistence core

Shallow embedding of the versioned document model
(`src/packages/firestore/src/model/document.ts`) and of the query-cache
contract exercised by `src/packages/firestore/test/unit/local/test_query_cache.ts`,
together with proofs settling the specification claims about them.

Comparators follow the TypeScript convention of returning a negative, zero
or positive number; we fix the concrete values -1, 0, 1 used throughout the
codebase.

The collaborator value types `SnapshotVersion`, `DocumentKey`, `FieldPath`,
`FieldValue`, `ObjectValue`, `Query` and `TargetId` are not part of the
sampled source; the spec (section 6) treats them as opaque value types with a
small set of required operations, and they are modelled from the spec
accordingly.
-/

namespace Firestore

/-- Modelled from the spec: the primitive three-way comparator convention
(`src/util/misc.ts` is not in the sample) — returns -1, 0 or 1. -/
def primitiveComparator (left right : Nat) : Int :=
  if left < right then -1
  else if right < left then 1
  else 0

/-- Modelled from the spec: `SnapshotVersion` (`src/core/snapshot_version.ts`
is not in the sample) — an opaque, totally ordered timestamp-like value with a
distinguished minimum `MIN`; modelled as a natural number with `MIN = 0`. -/
structure SnapshotVersion where
  timestamp : Nat
deriving DecidableEq, Repr

/-- Modelled from the spec: the distinguished minimum snapshot version. -/
def SnapshotVersion.MIN : SnapshotVersion := ⟨0⟩

/-- Modelled from the spec: total order comparison on snapshot versions. -/
def SnapshotVersion.compareTo (v w : SnapshotVersion) : Int :=
  primitiveComparator v.timestamp w.timestamp

/-- Modelled from the spec: equality of snapshot versions. -/
def SnapshotVersion.isEqual (v w : SnapshotVersion) : Bool :=
  v.timestamp == w.timestamp

/-- Modelled from the spec: `DocumentKey` (`src/model/document_key.ts` is not
in the sample) — an opaque, totally ordered identifier with a deterministic
comparator; modelled as a natural number identifier. -/
structure DocumentKey where
  id : Nat
deriving DecidableEq, Repr

/-- Modelled from the spec: the deterministic total-order comparator on
document keys required by the data model. -/
def DocumentKey.comparator (k1 k2 : DocumentKey) : Int :=
  primitiveComparator k1.id k2.id

/-- Modelled from the spec: equality of document keys. -/
def DocumentKey.isEqual (k1 k2 : DocumentKey) : Bool :=
  k1.id == k2.id

/-- Modelled from the spec: a field path (`src/model/path.ts` is not in the
sample) — a sequence of field-name segments. -/
abbrev FieldPath := List String

/-- Modelled from the spec: `FieldValue` (`src/model/field_value.ts` is not in
the sample) — an opaque value type whose required operations are `compareTo`
and `value()`; modelled as a scalar JSON-like value. -/
inductive FieldValue where
  | nullValue : FieldValue
  | booleanValue : Bool → FieldValue
  | integerValue : Int → FieldValue
  | stringValue : String → FieldValue
deriving DecidableEq, Repr

/-- Modelled from the spec: the raw JSON-like value produced by `value()`. -/
inductive JsonValue where
  | jsonNull : JsonValue
  | jsonBool : Bool → JsonValue
  | jsonInt : Int → JsonValue
  | jsonString : String → JsonValue
deriving DecidableEq, Repr

/-- Modelled from the spec: rank used to order field values of distinct
shapes, so that `compareTo` is total. -/
def FieldValue.typeRank : FieldValue → Nat
  | .nullValue => 0
  | .booleanValue _ => 1
  | .integerValue _ => 2
  | .stringValue _ => 3

/-- Modelled from the spec: `FieldValue.compareTo` — a deterministic total
comparator; values of different shapes order by rank. -/
def FieldValue.compareTo : FieldValue → FieldValue → Int
  | .nullValue, .nullValue => 0
  | .booleanValue a, .booleanValue b =>
      primitiveComparator (cond a 1 0) (cond b 1 0)
  | .integerValue a, .integerValue b =>
      if a < b then -1 else if b < a then 1 else 0
  | .stringValue a, .stringValue b =>
      if a < b then -1 else if b < a then 1 else 0
  | x, y => primitiveComparator x.typeRank y.typeRank

/-- Modelled from the spec: `FieldValue.value()` — projection to the raw
JSON-like form. -/
def FieldValue.value : FieldValue → JsonValue
  | .nullValue => .jsonNull
  | .booleanValue b => .jsonBool b
  | .integerValue i => .jsonInt i
  | .stringValue s => .jsonString s

/-- Modelled from the spec: `ObjectValue` (`src/model/field_value.ts` is not
in the sample) — the opaque structured document body; its required operations
are `field(path)`, `value()` and `isEqual`. Modelled as a finite assignment
of field paths to field values. -/
structure ObjectValue where
  entries : List (FieldPath × FieldValue)
deriving DecidableEq, Repr

/-- Modelled from the spec: `ObjectValue.field(path)` — the value assigned to
`path`, or absent. -/
def ObjectValue.field (o : ObjectValue) (path : FieldPath) : Option FieldValue :=
  match o.entries.find? (fun e => e.1 == path) with
  | some e => some e.2
  | none => none

/-- Modelled from the spec: `ObjectValue.value()` — the structured JSON-like
projection of the whole body. -/
def ObjectValue.value (o : ObjectValue) : List (FieldPath × JsonValue) :=
  o.entries.map (fun e => (e.1, e.2.value))

/-- Modelled from the spec: structural equality of object values. -/
def ObjectValue.isEqual (a b : ObjectValue) : Bool :=
  decide (a = b)

/-! ## The document model (`src/packages/firestore/src/model/document.ts`) -/

/-- `Document` (document.ts lines 49-121): a document known to exist, with a
key, the version last acknowledged by the server, the version at which the
local state was established, a structured body and a local-mutations flag. -/
structure Document where
  key : DocumentKey
  remoteVersion : SnapshotVersion
  commitVersion : SnapshotVersion
  data : ObjectValue
  hasLocalMutations : Bool
deriving DecidableEq, Repr

/-- `NoDocument` (document.ts lines 128-149): a document known to be absent.
Its fields are exactly the three base-class fields — it carries no data
payload and no mutation flag. -/
structure NoDocument where
  key : DocumentKey
  remoteVersion : SnapshotVersion
  commitVersion : SnapshotVersion
deriving DecidableEq, Repr

/-- `MaybeDocument` (document.ts lines 33-43): the closed sum of the two
variants. In the source this is an abstract base class whose only concrete
subclasses are `Document` and `NoDocument`. -/
inductive MaybeDocument where
  | doc : Document → MaybeDocument
  | noDoc : NoDocument → MaybeDocument
deriving DecidableEq, Repr

/-- Base-class field `key`, shared by both variants. -/
def MaybeDocument.key : MaybeDocument → DocumentKey
  | .doc d => d.key
  | .noDoc n => n.key

/-- Base-class field `remoteVersion`, shared by both variants. -/
def MaybeDocument.remoteVersion : MaybeDocument → SnapshotVersion
  | .doc d => d.remoteVersion
  | .noDoc n => n.remoteVersion

/-- Base-class field `commitVersion`, shared by both variants. -/
def MaybeDocument.commitVersion : MaybeDocument → SnapshotVersion
  | .doc d => d.commitVersion
  | .noDoc n => n.commitVersion

/-- `MaybeDocument.compareByKey` (document.ts lines 40-42):
`DocumentKey.comparator(d1.key, d2.key)`. -/
def MaybeDocument.compareByKey (d1 d2 : MaybeDocument) : Int :=
  DocumentKey.comparator d1.key d2.key

/-- `Document.field` (document.ts lines 63-65): `this.data.field(path)`. -/
def Document.field (d : Document) (path : FieldPath) : Option FieldValue :=
  d.data.field path

/-- `Document.fieldValue` (document.ts lines 67-70): looks the field up and
projects it with `value()`; `undefined` when the field is absent. A
`FieldValue` object is always truthy in the source language, so the source
conditional `field ? field.value() : undefined` distinguishes exactly
presence from absence. -/
def Document.fieldValue (d : Document) (path : FieldPath) : Option JsonValue :=
  match d.field path with
  | some f => some f.value
  | none => none

/-- `Document.value` (document.ts lines 72-74): `this.data.value()`. -/
def Document.value (d : Document) : List (FieldPath × JsonValue) :=
  d.data.value

/-- `Document.hasPendingWrites` (document.ts lines 76-92). -/
def Document.hasPendingWrites (d : Document) (baseSnapshotVersion : SnapshotVersion) : Bool :=
  if d.hasLocalMutations then
    true
  else if !(baseSnapshotVersion.isEqual SnapshotVersion.MIN)
      && decide (d.commitVersion.compareTo baseSnapshotVersion ≥ 0) then
    decide (d.commitVersion.compareTo d.remoteVersion > 0)
  else
    false

/-- `Document.isEqual` (document.ts lines 94-103). The declared parameter
type is `Document | null | undefined`, and the body guards with
`other instanceof Document` before reading any field, so at runtime the
argument may be any model value or null/undefined; we embed the argument
domain as `Option MaybeDocument` (`none` for null/undefined) and the
`instanceof` guard as the pattern match on the `doc` variant. -/
def Document.isEqual (d : Document) (other : Option MaybeDocument) : Bool :=
  match other with
  | some (.doc o) =>
      d.key.isEqual o.key
        && d.remoteVersion.isEqual o.remoteVersion
        && d.commitVersion.isEqual o.commitVersion
        && d.data.isEqual o.data
        && d.hasLocalMutations == o.hasLocalMutations
  | _ => false

/-- `Document.compareByField` (document.ts lines 112-120): compares the two
field values when both are present, and otherwise calls `fail(...)` from
`src/util/assert.ts`, which throws a fatal assertion error; the throw is
embedded as `Except.error` carrying the assertion message. -/
def Document.compareByField (field : FieldPath) (d1 d2 : Document) : Except String Int :=
  match d1.field field, d2.field field with
  | some v1, some v2 => Except.ok (v1.compareTo v2)
  | _, _ => Except.error "Trying to compare documents on fields that do not exist"

/-- `NoDocument.isEqual` (document.ts lines 141-148). The declared parameter
type is `NoDocument`, but the body performs no `instanceof` check: it only
tests truthiness of `other` and then reads the base-class fields
`remoteVersion`, `commitVersion` and `key`, all of which exist on both
variants. We therefore embed it over the same runtime argument domain
`Option MaybeDocument` as `Document.isEqual`, with the truthiness test as
the match on `none`. -/
def NoDocument.isEqual (n : NoDocument) (other : Option MaybeDocument) : Bool :=
  match other with
  | none => false
  | some m =>
      m.remoteVersion.isEqual n.remoteVersion
        && m.commitVersion.isEqual n.commitVersion
        && m.key.isEqual n.key

/-- The member names declared by the `NoDocument` class (document.ts lines
128-149) together with the fields inherited from `MaybeDocument` (lines
33-43): the class declares only a constructor, `toString` and `isEqual`; in
particular it declares neither `field` nor `value` nor a `data` field. -/
def NoDocument.memberNames : List String :=
  ["key", "remoteVersion", "commitVersion", "toString", "isEqual"]

/-- Projection of the document model used by its consumers: on the `doc`
variant this is `Document.field` (document.ts lines 63-65); the `noDoc`
variant carries no data payload (document.ts lines 128-135), so the
projection is forced to be absent there. -/
def MaybeDocument.field : MaybeDocument → FieldPath → Option FieldValue
  | .doc d, path => d.field path
  | .noDoc _, _ => none

/-- Projection of the whole body: `Document.value` (document.ts lines 72-74)
on the `doc` variant; the `noDoc` variant carries no data payload, so the
projection is forced to be absent there. -/
def MaybeDocument.value : MaybeDocument → Option (List (FieldPath × JsonValue))
  | .doc d => some d.value
  | .noDoc _ => none

/-! ## The query cache

The `QueryCache` implementation (`src/local/query_cache.ts` and its memory /
IndexedDb realizations) is not in the sample; only its test wrapper
`src/packages/firestore/test/unit/local/test_query_cache.ts` is. The state
and operations below are therefore modelled from the spec (section 4.2),
one definition per contracted operation, over the state a single transaction
observes. -/

/-- Modelled from the spec: `TargetId` — an opaque, ordered integer-like
identifier allocated monotonically. -/
abbrev TargetId := Nat

/-- Modelled from the spec: `Query` (`src/core/query.ts` is not in the
sample) — an opaque descriptor with a canonical identity used as the lookup
key of `getQueryData`. -/
structure Query where
  canonicalId : String
deriving DecidableEq, Repr

/-- Modelled from the spec: `QueryData` — the per-target persisted record:
the query it serves, its target id, its listen-sequence number and its
resumable snapshot position. -/
structure QueryData where
  query : Query
  targetId : TargetId
  sequenceNumber : Nat
  snapshotVersion : SnapshotVersion
deriving DecidableEq, Repr

/-- Modelled from the spec: the state owned by the query cache — the
query-to-record map (keyed by the query's canonical identity), the
target-to-matched-key index, and the global metadata (target id high-water
mark, listen-sequence watermark, last remote snapshot version). -/
structure QueryCacheState where
  queries : List (String × QueryData)
  matchedKeys : List (TargetId × List DocumentKey)
  highestTargetId : TargetId
  highestListenSequenceNumber : Nat
  lastRemoteSnapshotVersion : SnapshotVersion
deriving DecidableEq, Repr

/-- Modelled from the spec: is some record currently stored under the given
target id. -/
def QueryCacheState.targetIdTracked (s : QueryCacheState) (t : TargetId) : Bool :=
  s.queries.any (fun e => e.2.targetId == t)

/-- Modelled from the spec: `getQueryData(query)` — the stored record for
that exact query, or absent; the lookup key is the query's canonical
identity. -/
def QueryCacheState.getQueryData (s : QueryCacheState) (q : Query) : Option QueryData :=
  match s.queries.find? (fun e => e.1 == q.canonicalId) with
  | some e => some e.2
  | none => none

/-- Modelled from the spec: the matched-key set of one target inside the
index (empty when the target has no entry). -/
def QueryCacheState.getMatchingKeysForTargetId
    (s : QueryCacheState) (t : TargetId) : List DocumentKey :=
  match s.matchedKeys.find? (fun e => e.1 == t) with
  | some e => e.2
  | none => []

/-- Modelled from the spec: `addQueryData(queryData)` — inserts the record
and initializes an empty matched-key set for its target; fails (caller
error) if the target id already has a record. -/
def QueryCacheState.addQueryData (s : QueryCacheState) (qd : QueryData) :
    Option QueryCacheState :=
  if s.targetIdTracked qd.targetId then
    none
  else
    some { s with
      queries := (qd.query.canonicalId, qd) :: s.queries
      matchedKeys :=
        (qd.targetId, []) :: s.matchedKeys.filter (fun e => !(e.1 == qd.targetId)) }

/-- Modelled from the spec: `updateQueryData(queryData)` — replaces the
stored record wholesale. -/
def QueryCacheState.updateQueryData (s : QueryCacheState) (qd : QueryData) :
    QueryCacheState :=
  { s with
    queries := s.queries.map
      (fun e => if e.1 == qd.query.canonicalId then (e.1, qd) else e) }

/-- Modelled from the spec: `removeQueryData(queryData)` — removes the
per-target record; it does not clear the matched-key set. -/
def QueryCacheState.removeQueryData (s : QueryCacheState) (qd : QueryData) :
    QueryCacheState :=
  { s with queries := s.queries.filter (fun e => !(e.1 == qd.query.canonicalId)) }

/-- Modelled from the spec: `getQueryCount()` — the number of
currently-tracked targets. -/
def QueryCacheState.getQueryCount (s : QueryCacheState) : Nat :=
  s.queries.length

/-- Modelled from the spec: `allocateTargetId()` — returns a fresh id
strictly greater than any previously allocated one and persists the new
high-water mark in the same transaction. -/
def QueryCacheState.allocateTargetId (s : QueryCacheState) :
    TargetId × QueryCacheState :=
  let next := s.highestTargetId + 1
  (next, { s with highestTargetId := next })

/-- Modelled from the spec: idempotent insertion of one key into a key
list. -/
def insertKey (ks : List DocumentKey) (k : DocumentKey) : List DocumentKey :=
  if ks.contains k then ks else ks ++ [k]

/-- Modelled from the spec: `addMatchingKeys(keys, targetId)` — idempotently
adds each key to the target's matched set. -/
def QueryCacheState.addMatchingKeys (s : QueryCacheState)
    (keys : List DocumentKey) (t : TargetId) : QueryCacheState :=
  let updated := keys.foldl insertKey (s.getMatchingKeysForTargetId t)
  { s with
    matchedKeys := (t, updated) :: s.matchedKeys.filter (fun e => !(e.1 == t)) }

/-- Modelled from the spec: `removeMatchingKeys(keys, targetId)` —
idempotently removes each key from the target's matched set. -/
def QueryCacheState.removeMatchingKeys (s : QueryCacheState)
    (keys : List DocumentKey) (t : TargetId) : QueryCacheState :=
  let updated := (s.getMatchingKeysForTargetId t).filter (fun k => !keys.contains k)
  { s with
    matchedKeys := (t, updated) :: s.matchedKeys.filter (fun e => !(e.1 == t)) }

/-- Modelled from the spec: `removeMatchingKeysForTargetId(targetId)` —
clears the entire matched-key set for that target in one step. -/
def QueryCacheState.removeMatchingKeysForTargetId (s : QueryCacheState)
    (t : TargetId) : QueryCacheState :=
  { s with matchedKeys := s.matchedKeys.filter (fun e => !(e.1 == t)) }

/-- Modelled from the spec: `containsKey(key)` — true iff any
currently-tracked target's matched set contains the key. -/
def QueryCacheState.containsKey (s : QueryCacheState) (k : DocumentKey) : Bool :=
  s.matchedKeys.any (fun e => e.2.contains k)

/-- Modelled from the spec: `setTargetsMetadata(highestListenSequenceNumber,
lastRemoteSnapshotVersion?)` — persists the watermark; the snapshot version
is only overwritten when supplied. -/
def QueryCacheState.setTargetsMetadata (s : QueryCacheState)
    (seqNo : Nat) (version : Option SnapshotVersion) : QueryCacheState :=
  { s with
    highestListenSequenceNumber := seqNo
    lastRemoteSnapshotVersion := version.getD s.lastRemoteSnapshotVersion }

/-- One cache operation, as invokable through the test wrapper
(test_query_cache.ts lines 33-138). -/
inductive CacheOp where
  | addQuery : QueryData → CacheOp
  | updateQuery : QueryData → CacheOp
  | removeQuery : QueryData → CacheOp
  | allocate : CacheOp
  | addKeys : List DocumentKey → TargetId → CacheOp
  | removeKeys : List DocumentKey → TargetId → CacheOp
  | clearKeys : TargetId → CacheOp
  | setMetadata : Nat → Option SnapshotVersion → CacheOp
deriving DecidableEq, Repr

/-- State transition of one cache operation (a failing `addQueryData` leaves
the state unchanged, as the failed transaction does not commit). -/
def applyOp (s : QueryCacheState) : CacheOp → QueryCacheState
  | .addQuery qd => (s.addQueryData qd).getD s
  | .updateQuery qd => s.updateQueryData qd
  | .removeQuery qd => s.removeQueryData qd
  | .allocate => s.allocateTargetId.2
  | .addKeys keys t => s.addMatchingKeys keys t
  | .removeKeys keys t => s.removeMatchingKeys keys t
  | .clearKeys t => s.removeMatchingKeysForTargetId t
  | .setMetadata n v => s.setTargetsMetadata n v

/-- The target ids returned by the `allocate` operations of a run, in
order. -/
def allocatedIds (s : QueryCacheState) : List CacheOp → List TargetId
  | [] => []
  | .allocate :: rest => s.allocateTargetId.1 :: allocatedIds (applyOp s .allocate) rest
  | op :: rest => allocatedIds (applyOp s op) rest

/-! ## Concrete sample values

Used to instantiate the hypothesis-bearing theorems below at concrete
inputs. -/

/-- A sample document key. -/
def sampleKey1 : DocumentKey := ⟨1⟩

/-- A second sample document key. -/
def sampleKey2 : DocumentKey := ⟨2⟩

/-- A third sample document key. -/
def sampleKey3 : DocumentKey := ⟨3⟩

/-- A sample document body assigning field `a` the integer 1. -/
def sampleBody1 : ObjectValue := ⟨[(["a"], .integerValue 1)]⟩

/-- A sample document body assigning field `a` the integer 2. -/
def sampleBody2 : ObjectValue := ⟨[(["a"], .integerValue 2)]⟩

/-- A sample document at key 1, remote version 3, commit version 5. -/
def sampleDoc1 : Document := ⟨sampleKey1, ⟨3⟩, ⟨5⟩, sampleBody1, false⟩

/-- A sample document at key 2. -/
def sampleDoc2 : Document := ⟨sampleKey2, ⟨3⟩, ⟨5⟩, sampleBody2, false⟩

/-- A sample document at key 3. -/
def sampleDoc3 : Document := ⟨sampleKey3, ⟨3⟩, ⟨5⟩, sampleBody1, false⟩

/-- A sample deleted-document marker sharing key 1, remote version 3 and
commit version 5 with `sampleDoc1`. -/
def sampleNoDoc : NoDocument := ⟨sampleKey1, ⟨3⟩, ⟨5⟩⟩

/-- A sample query descriptor. -/
def sampleQuery : Query := ⟨"rooms"⟩

/-- A sample per-target record for `sampleQuery` under target id 2. -/
def sampleQueryData : QueryData := ⟨sampleQuery, 2, 1, ⟨0⟩⟩

/-- The empty query-cache state. -/
def emptyCache : QueryCacheState := ⟨[], [], 0, 0, ⟨0⟩⟩

/-- The cache state after adding `sampleQueryData` to the empty cache. -/
def cacheWithQuery : QueryCacheState :=
  (emptyCache.addQueryData sampleQueryData).getD emptyCache

/-- A cache state whose only matched-key entry is key 1 under target 7. -/
def cacheWithKey : QueryCacheState := ⟨[], [(7, [sampleKey1])], 7, 0, ⟨0⟩⟩

/-! ## Helper lemmas -/

/-- The primitive comparator is zero exactly on equal arguments. -/
lemma primitiveComparator_eq_zero_iff (a b : Nat) :
    primitiveComparator a b = 0 ↔ a = b := by
  unfold primitiveComparator
  split_ifs <;> simp_all <;> omega

/-- The primitive comparator is antisymmetric. -/
lemma primitiveComparator_swap (a b : Nat) :
    primitiveComparator b a = -primitiveComparator a b := by
  unfold primitiveComparator
  split_ifs <;> omega

/-- The primitive comparator is nonpositive exactly on ordered arguments. -/
lemma primitiveComparator_nonpos_iff (a b : Nat) :
    primitiveComparator a b ≤ 0 ↔ a ≤ b := by
  unfold primitiveComparator
  split_ifs <;> simp_all <;> omega

/-- Document keys are equal exactly when their identifiers are. -/
lemma DocumentKey.eq_iff_id (k1 k2 : DocumentKey) : k1 = k2 ↔ k1.id = k2.id := by
  cases k1; cases k2; simp

/-- `Document.isEqual` against the `doc` variant decides full structural
equality: the five compared components are exactly the five fields. -/
lemma Document.isEqual_doc_iff (d1 d2 : Document) :
    d1.isEqual (some (.doc d2)) = true ↔ d1 = d2 := by
  obtain ⟨⟨k1⟩, ⟨r1⟩, ⟨c1⟩, o1, m1⟩ := d1
  obtain ⟨⟨k2⟩, ⟨r2⟩, ⟨c2⟩, o2, m2⟩ := d2
  simp [Document.isEqual, DocumentKey.isEqual, SnapshotVersion.isEqual,
    ObjectValue.isEqual, and_assoc]

/-- `NoDocument.isEqual` against the `noDoc` variant decides full structural
equality: the three compared components are exactly the three fields. -/
lemma NoDocument.isEqual_noDoc_iff (n1 n2 : NoDocument) :
    n1.isEqual (some (.noDoc n2)) = true ↔ n1 = n2 := by
  obtain ⟨⟨k1⟩, ⟨r1⟩, ⟨c1⟩⟩ := n1
  obtain ⟨⟨k2⟩, ⟨r2⟩, ⟨c2⟩⟩ := n2
  simp only [NoDocument.isEqual, DocumentKey.isEqual, SnapshotVersion.isEqual,
    MaybeDocument.key, MaybeDocument.remoteVersion, MaybeDocument.commitVersion,
    Bool.and_eq_true, beq_iff_eq, NoDocument.mk.injEq, DocumentKey.mk.injEq,
    SnapshotVersion.mk.injEq]
  constructor <;> intro h <;> omega

/-! ## Claims about the document model -/

/-- C1: for every `Document` d and every `SnapshotVersion` v,
`d.hasPendingWrites(v)` is decided exactly in this order: if
`d.hasLocalMutations` is true it returns true; otherwise, if v is not equal
to `SnapshotVersion.MIN` and `d.commitVersion >= v`, it returns
`d.commitVersion > d.remoteVersion`; otherwise it returns false. -/
theorem hasPendingWrites_decision_order (d : Document) (v : SnapshotVersion) :
    d.hasPendingWrites v =
      if d.hasLocalMutations then
        true
      else if v ≠ SnapshotVersion.MIN ∧ v.timestamp ≤ d.commitVersion.timestamp then
        decide (d.remoteVersion.timestamp < d.commitVersion.timestamp)
      else
        false := by
  obtain ⟨k, ⟨r⟩, ⟨c⟩, o, m⟩ := d
  obtain ⟨t⟩ := v
  simp only [Document.hasPendingWrites, SnapshotVersion.isEqual,
    SnapshotVersion.compareTo, SnapshotVersion.MIN, primitiveComparator]
  cases m <;> simp <;> split_ifs <;> simp_all <;> omega

/-- C9: `Document.isEqual` is total over its runtime argument domain: it
returns false (without reading any field of the argument, hence without
throwing) on null/undefined and on every value that is not a `Document`
instance. -/
theorem document_isEqual_non_document_false (d : Document) :
    d.isEqual none = false
    ∧ ∀ n : NoDocument, d.isEqual (some (.noDoc n)) = false :=
  ⟨rfl, fun _ => rfl⟩

/-- C2 counterexample: the claim asserts that for a `Document` and a
`NoDocument` sharing key, remoteVersion and commitVersion, `isEqual` returns
false in both directions; but `NoDocument.isEqual` (document.ts lines
141-148) performs no variant check and compares only the base-class fields,
so in the `NoDocument -> Document` direction it returns true on this
concrete pair. -/
theorem isEqual_cross_variant_cex :
    sampleDoc1.key = sampleNoDoc.key
    ∧ sampleDoc1.remoteVersion = sampleNoDoc.remoteVersion
    ∧ sampleDoc1.commitVersion = sampleNoDoc.commitVersion
    ∧ sampleNoDoc.isEqual (some (.doc sampleDoc1)) = true :=
  ⟨rfl, rfl, rfl, rfl⟩

/-- C2 (amended): `isEqual` is reflexive and symmetric on each variant, and
`Document.isEqual` is variant-guarded (false on every `NoDocument`); but
`NoDocument.isEqual` has no variant guard — on a `Document` argument it just
compares the base-class fields `remoteVersion`, `commitVersion` and `key`,
so it returns true when these coincide. -/
theorem isEqual_reflexive_symmetric_guarded (d d1 d2 : Document) (n n1 n2 : NoDocument) :
    d.isEqual (some (.doc d)) = true
    ∧ n.isEqual (some (.noDoc n)) = true
    ∧ d1.isEqual (some (.doc d2)) = d2.isEqual (some (.doc d1))
    ∧ n1.isEqual (some (.noDoc n2)) = n2.isEqual (some (.noDoc n1))
    ∧ d.isEqual (some (.noDoc n)) = false
    ∧ n.isEqual (some (.doc d)) =
        (d.remoteVersion.isEqual n.remoteVersion
          && d.commitVersion.isEqual n.commitVersion
          && d.key.isEqual n.key) := by
  refine ⟨?_, ?_, ?_, ?_, rfl, rfl⟩
  · exact (Document.isEqual_doc_iff d d).mpr rfl
  · exact (NoDocument.isEqual_noDoc_iff n n).mpr rfl
  · rw [Bool.eq_iff_iff, Document.isEqual_doc_iff, Document.isEqual_doc_iff]
    exact eq_comm
  · rw [Bool.eq_iff_iff, NoDocument.isEqual_noDoc_iff, NoDocument.isEqual_noDoc_iff]
    exact eq_comm

/-- C3: `Document.compareByField(path, d1, d2)` fails with the fatal
assertion exactly when at least one of the two documents lacks a field value
at the path; when both have one, the failure branch is unreachable and the
result is the `compareTo` of the two field values — never a sentinel. -/
theorem compareByField_fatal_iff_missing (f : FieldPath) (d1 d2 : Document) :
    ((∃ msg, Document.compareByField f d1 d2 = Except.error msg)
        ↔ d1.field f = none ∨ d2.field f = none)
    ∧ ∀ v1 v2, d1.field f = some v1 → d2.field f = some v2 →
        Document.compareByField f d1 d2 = Except.ok (v1.compareTo v2) := by
  constructor
  · cases h1 : d1.field f <;> cases h2 : d2.field f <;>
      simp [Document.compareByField, h1, h2]
  · intro v1 v2 h1 h2
    simp [Document.compareByField, h1, h2]

/-- C3 witness: on two concrete documents both carrying field `a`, the
comparison succeeds with the `compareTo` of the two field values. -/
theorem compareByField_witness :
    Document.compareByField ["a"] sampleDoc1 sampleDoc2 =
      Except.ok ((FieldValue.integerValue 1).compareTo (FieldValue.integerValue 2)) :=
  (compareByField_fatal_iff_missing ["a"] sampleDoc1 sampleDoc2).2 _ _ rfl rfl

/-- C4 counterexample: the claim asserts that on a `NoDocument`, `field(path)`
returns absent and `value()` returns an empty result; but the `NoDocument`
class (document.ts lines 128-149) declares no `field` or `value` member at
all — invoking them is not an absent-valued projection. -/
theorem noDocument_members_cex :
    (NoDocument.memberNames.contains "field") = false
    ∧ (NoDocument.memberNames.contains "value") = false := by
  constructor <;> rfl

/-- C4 (amended): `NoDocument` declares neither a `field` nor a `value`
member and carries no data payload, so the document-model projection is
forced to be absent/empty on the `NoDocument` variant. -/
theorem noDocument_projection_empty (n : NoDocument) (p : FieldPath) :
    (NoDocument.memberNames.contains "field") = false
    ∧ (NoDocument.memberNames.contains "value") = false
    ∧ MaybeDocument.field (.noDoc n) p = none
    ∧ MaybeDocument.value (.noDoc n) = none :=
  ⟨rfl, rfl, rfl, rfl⟩

/-- C8: `compareByKey(d1, d2)` equals `DocumentKey.comparator(d1.key, d2.key)`
and induces a total order on documents that depends only on their keys:
zero exactly on equal keys, antisymmetric, transitive, total, and invariant
under replacing a document by one with the same key. -/
theorem compareByKey_total_order (d1 d2 d3 : MaybeDocument) :
    MaybeDocument.compareByKey d1 d2 = DocumentKey.comparator d1.key d2.key
    ∧ (MaybeDocument.compareByKey d1 d2 = 0 ↔ d1.key = d2.key)
    ∧ MaybeDocument.compareByKey d2 d1 = -MaybeDocument.compareByKey d1 d2
    ∧ (MaybeDocument.compareByKey d1 d2 ≤ 0 → MaybeDocument.compareByKey d2 d3 ≤ 0 →
        MaybeDocument.compareByKey d1 d3 ≤ 0)
    ∧ (MaybeDocument.compareByKey d1 d2 ≤ 0 ∨ MaybeDocument.compareByKey d2 d1 ≤ 0)
    ∧ (d1.key = d2.key → MaybeDocument.compareByKey d1 d3 = MaybeDocument.compareByKey d2 d3) := by
  refine ⟨rfl, ?_, ?_, ?_, ?_, ?_⟩
  · rw [MaybeDocument.compareByKey, DocumentKey.comparator,
      primitiveComparator_eq_zero_iff, DocumentKey.eq_iff_id]
  · exact primitiveComparator_swap _ _
  · simp only [MaybeDocument.compareByKey, DocumentKey.comparator,
      primitiveComparator_nonpos_iff]
    omega
  · simp only [MaybeDocument.compareByKey, DocumentKey.comparator,
      primitiveComparator_nonpos_iff]
    omega
  · intro h
    rw [MaybeDocument.compareByKey, MaybeDocument.compareByKey, h]

/-- C8 witness: on three concrete documents with keys 1, 2, 3, transitivity
yields `compareByKey(sampleDoc1, sampleDoc3) <= 0`. -/
theorem compareByKey_witness :
    MaybeDocument.compareByKey (.doc sampleDoc1) (.doc sampleDoc3) ≤ 0 :=
  (compareByKey_total_order (.doc sampleDoc1) (.doc sampleDoc2) (.doc sampleDoc3)).2.2.2.1
    (by decide) (by decide)

/-- C10: `Document.fieldValue(p)` is undefined exactly when `field(p)` is
absent, and otherwise is the `value()` of the field found at `p`. -/
theorem fieldValue_projects_field (d : Document) (p : FieldPath) :
    (d.fieldValue p = none ↔ d.field p = none)
    ∧ ∀ f, d.field p = some f → d.fieldValue p = some f.value := by
  constructor
  · cases h : d.field p <;> simp [Document.fieldValue, h]
  · intro f h
    simp [Document.fieldValue, h]

/-- C10 witness: on a concrete document carrying integer 1 at field `a`,
`fieldValue` returns the projected raw value. -/
theorem fieldValue_witness :
    sampleDoc1.fieldValue ["a"] = some (FieldValue.integerValue 1).value :=
  (fieldValue_projects_field sampleDoc1 ["a"]).2 _ rfl

/-! ## Claims about the query cache -/

/-- Searching for a canonical id inside a list from which it was filtered out
finds nothing. -/
lemma find?_filter_dropped (l : List (String × QueryData)) (c : String) :
    (l.filter (fun e => !(e.1 == c))).find? (fun e => e.1 == c) = none := by
  rw [List.find?_eq_none]
  intro e he
  have := List.of_mem_filter he
  simp at this
  simp [this]

/-- No cache operation decreases the persisted target-id high-water mark. -/
lemma applyOp_highestTargetId_le (s : QueryCacheState) (op : CacheOp) :
    s.highestTargetId ≤ (applyOp s op).highestTargetId := by
  cases op with
  | addQuery qd =>
      simp only [applyOp, QueryCacheState.addQueryData]
      split
      · simp
      · simp
  | allocate =>
      simp [applyOp, QueryCacheState.allocateTargetId]
  | updateQuery qd => simp [applyOp, QueryCacheState.updateQueryData]
  | removeQuery qd => simp [applyOp, QueryCacheState.removeQueryData]
  | addKeys keys t => simp [applyOp, QueryCacheState.addMatchingKeys]
  | removeKeys keys t => simp [applyOp, QueryCacheState.removeMatchingKeys]
  | clearKeys t => simp [applyOp, QueryCacheState.removeMatchingKeysForTargetId]
  | setMetadata n v => simp [applyOp, QueryCacheState.setTargetsMetadata]

/-- Every id allocated during a run is strictly above the high-water mark the
run started from. -/
lemma allocatedIds_gt (ops : List CacheOp) :
    ∀ s : QueryCacheState, ∀ x ∈ allocatedIds s ops, s.highestTargetId < x := by
  induction ops with
  | nil => intro s x hx; simp [allocatedIds] at hx
  | cons op rest ih =>
      intro s x hx
      cases op with
      | allocate =>
          simp only [allocatedIds, List.mem_cons] at hx
          rcases hx with rfl | hx
          · simp [QueryCacheState.allocateTargetId]
          · have h := ih _ x hx
            simp only [applyOp, QueryCacheState.allocateTargetId] at h
            exact Nat.lt_of_succ_lt h
      | addQuery qd =>
          have h := ih _ x (by simpa [allocatedIds] using hx)
          have hle := applyOp_highestTargetId_le s (.addQuery qd)
          exact Nat.lt_of_le_of_lt hle h
      | updateQuery qd =>
          have h := ih _ x (by simpa [allocatedIds] using hx)
          have hle := applyOp_highestTargetId_le s (.updateQuery qd)
          exact Nat.lt_of_le_of_lt hle h
      | removeQuery qd =>
          have h := ih _ x (by simpa [allocatedIds] using hx)
          have hle := applyOp_highestTargetId_le s (.removeQuery qd)
          exact Nat.lt_of_le_of_lt hle h
      | addKeys keys t =>
          have h := ih _ x (by simpa [allocatedIds] using hx)
          have hle := applyOp_highestTargetId_le s (.addKeys keys t)
          exact Nat.lt_of_le_of_lt hle h
      | removeKeys keys t =>
          have h := ih _ x (by simpa [allocatedIds] using hx)
          have hle := applyOp_highestTargetId_le s (.removeKeys keys t)
          exact Nat.lt_of_le_of_lt hle h
      | clearKeys t =>
          have h := ih _ x (by simpa [allocatedIds] using hx)
          have hle := applyOp_highestTargetId_le s (.clearKeys t)
          exact Nat.lt_of_le_of_lt hle h
      | setMetadata n v =>
          have h := ih _ x (by simpa [allocatedIds] using hx)
          have hle := applyOp_highestTargetId_le s (.setMetadata n v)
          exact Nat.lt_of_le_of_lt hle h

/-- The ids allocated during a run form a strictly increasing chain. -/
lemma allocatedIds_chain (ops : List CacheOp) :
    ∀ s : QueryCacheState, List.Chain' (· < ·) (allocatedIds s ops) := by
  induction ops with
  | nil => intro s; simp [allocatedIds]
  | cons op rest ih =>
      intro s
      cases op with
      | allocate =>
          simp only [allocatedIds]
          rw [List.chain'_cons']
          refine ⟨?_, ih _⟩
          intro y hy
          have hmem := List.mem_of_mem_head? hy
          have h := allocatedIds_gt rest _ y hmem
          simp only [applyOp, QueryCacheState.allocateTargetId] at h ⊢
          exact h
      | addQuery qd => simpa [allocatedIds] using ih (applyOp s (.addQuery qd))
      | updateQuery qd => simpa [allocatedIds] using ih (applyOp s (.updateQuery qd))
      | removeQuery qd => simpa [allocatedIds] using ih (applyOp s (.removeQuery qd))
      | addKeys keys t => simpa [allocatedIds] using ih (applyOp s (.addKeys keys t))
      | removeKeys keys t => simpa [allocatedIds] using ih (applyOp s (.removeKeys keys t))
      | clearKeys t => simpa [allocatedIds] using ih (applyOp s (.clearKeys t))
      | setMetadata n v => simpa [allocatedIds] using ih (applyOp s (.setMetadata n v))

/-- One allocation per `allocate` operation in a run. -/
lemma allocatedIds_length (ops : List CacheOp) :
    ∀ s : QueryCacheState,
      (allocatedIds s ops).length = ops.countP (fun op => decide (op = CacheOp.allocate)) := by
  induction ops with
  | nil => intro s; simp [allocatedIds]
  | cons op rest ih =>
      intro s
      cases op with
      | allocate => simp [allocatedIds, List.countP_cons, ih]
      | addQuery qd => simp [allocatedIds, List.countP_cons, ih]
      | updateQuery qd => simp [allocatedIds, List.countP_cons, ih]
      | removeQuery qd => simp [allocatedIds, List.countP_cons, ih]
      | addKeys keys t => simp [allocatedIds, List.countP_cons, ih]
      | removeKeys keys t => simp [allocatedIds, List.countP_cons, ih]
      | clearKeys t => simp [allocatedIds, List.countP_cons, ih]
      | setMetadata n v => simp [allocatedIds, List.countP_cons, ih]

/-- C5: `containsKey(k)` is true exactly when `k` belongs to the matched-key
set of at least one currently-tracked target; and once the last target whose
matched set contains `k` has its set cleared, `containsKey(k)` is false. -/
theorem containsKey_iff_some_target (s : QueryCacheState) (k : DocumentKey) (t : TargetId) :
    (s.containsKey k = true ↔ ∃ t' ks, (t', ks) ∈ s.matchedKeys ∧ k ∈ ks)
    ∧ ((∀ t' ks, (t', ks) ∈ s.matchedKeys → k ∈ ks → t' = t) →
        (s.removeMatchingKeysForTargetId t).containsKey k = false) := by
  constructor
  · simp only [QueryCacheState.containsKey, List.any_eq_true]
    constructor
    · rintro ⟨⟨t', ks⟩, hmem, hk⟩
      exact ⟨t', ks, hmem, by simpa using hk⟩
    · rintro ⟨t', ks, hmem, hk⟩
      exact ⟨(t', ks), hmem, by simpa using hk⟩
  · intro hlast
    simp only [QueryCacheState.containsKey, QueryCacheState.removeMatchingKeysForTargetId,
      List.any_eq_false]
    rintro ⟨t', ks⟩ hmem
    have hin := List.of_mem_filter hmem
    have hmem' := List.mem_of_mem_filter hmem
    simp only [Bool.not_eq_true', beq_eq_false_iff_ne, ne_eq] at hin
    intro hk
    exact hin (hlast t' ks hmem' (by simpa using hk))

/-- C5 witness: a cache whose only matched-key entry is key 1 under target 7
no longer contains key 1 after target 7 is cleared. -/
theorem containsKey_cleared_witness :
    (cacheWithKey.removeMatchingKeysForTargetId 7).containsKey sampleKey1 = false := by
  refine (containsKey_iff_some_target cacheWithKey sampleKey1 7).2 ?_
  intro t' ks hmem _
  simp only [cacheWithKey, List.mem_singleton, Prod.mk.injEq] at hmem
  exact hmem.1

/-- C6: over any operation sequence, the ids handed out by
`allocateTargetId()` are strictly increasing with no repeats — removals in
between do not allow reuse — there is exactly one id per call, and each call
persists the new high-water mark in the returned (same-transaction) state. -/
theorem allocateTargetId_monotonic (s : QueryCacheState) (ops : List CacheOp) :
    List.Chain' (· < ·) (allocatedIds s ops)
    ∧ (allocatedIds s ops).Nodup
    ∧ (allocatedIds s ops).length = ops.countP (fun op => decide (op = CacheOp.allocate))
    ∧ (s.allocateTargetId).2.highestTargetId = (s.allocateTargetId).1
    ∧ s.highestTargetId < (s.allocateTargetId).1 := by
  have hchain := allocatedIds_chain ops s
  refine ⟨hchain, ?_, allocatedIds_length ops s, rfl, ?_⟩
  · have hpw := List.chain'_iff_pairwise.mp hchain
    exact hpw.imp Nat.ne_of_lt
  · simp [QueryCacheState.allocateTargetId]

/-- C7: adding a record for an untracked target id and looking its query up
returns the record; removing it and looking up returns absent; and the
lookup is keyed on the query's canonical identity, not on the target id. -/
theorem queryData_roundtrip (s s' : QueryCacheState) (qd : QueryData) (q1 q2 : Query) :
    (s.addQueryData qd = some s' → s'.getQueryData qd.query = some qd)
    ∧ (s.removeQueryData qd).getQueryData qd.query = none
    ∧ (q1.canonicalId = q2.canonicalId → s.getQueryData q1 = s.getQueryData q2) := by
  refine ⟨?_, ?_, ?_⟩
  · intro h
    simp only [QueryCacheState.addQueryData] at h
    split at h
    · exact absurd h (by simp)
    · obtain rfl := Option.some.inj h
      simp [QueryCacheState.getQueryData, List.find?]
  · simp only [QueryCacheState.getQueryData, QueryCacheState.removeQueryData,
      find?_filter_dropped]
  · intro h
    simp only [QueryCacheState.getQueryData, h]

/-- C7 witness: adding the sample record to the empty cache and looking its
query up returns the record. -/
theorem queryData_roundtrip_witness :
    cacheWithQuery.getQueryData sampleQueryData.query = some sampleQueryData :=
  (queryData_roundtrip emptyCache cacheWithQuery sampleQueryData sampleQuery sampleQuery).1 rfl

end Firestore
